import Mathlib

/-!
Verification of the text buffer and viewport engine of the `red` terminal
editor.  The definitions below are shallow embeddings of the Python source:
`TextRow` / `TextDocument` / `Editor` from `red/__init__.py` and the
`TextLine` renderer from `red/document.py`.  Python strings are modelled as
`List Char`, Python ints as `Int` (clamped values stored as `Nat`), and
operations that may raise `IndexError` additionally have `Option`-returning
"checked" variants in which every list subscript is a `List.get?`.
-/

namespace Red

/-- Model of the `wcwidth` library function restricted to the character
ranges exercised here: C0/C1 control characters (including TAB, LF, CR)
report -1, combining marks report 0, East-Asian wide ranges (Hangul Jamo,
CJK blocks) report 2, everything else reports 1. -/
def wcwidth (c : Char) : Int :=
  if c.val < 0x20 then -1
  else if 0x7f ≤ c.val ∧ c.val ≤ 0x9f then -1
  else if 0x300 ≤ c.val ∧ c.val ≤ 0x36f then 0
  else if 0x1100 ≤ c.val ∧ c.val ≤ 0x115f then 2
  else if 0x2e80 ≤ c.val ∧ c.val ≤ 0x303e then 2
  else if 0x3041 ≤ c.val ∧ c.val ≤ 0x33ff then 2
  else if 0x4e00 ≤ c.val ∧ c.val ≤ 0x9fff then 2
  else 1

/-- Model of the `wcswidth` library function: -1 when any character is
non-printable, otherwise the sum of the character widths. -/
def wcswidth (l : List Char) : Int :=
  if l.all (fun c => 0 ≤ wcwidth c) then (l.map wcwidth).sum else -1

/-- Model of Python's `str.isspace` on a single character, restricted to the
ASCII whitespace set (the only whitespace characters exercised here). -/
def pyIsSpace (c : Char) : Bool :=
  c = ' ' ∨ c = '\t' ∨ c = '\n' ∨ c = '\r' ∨ c = '\x0b' ∨ c = '\x0c'

/-- Model of Python's `str.isspace`: true iff the string is non-empty and
every character is whitespace. -/
def strIsSpace (s : List Char) : Bool :=
  !s.isEmpty && s.all pyIsSpace

/-- Cell styles, from the `Style` enums of `red/__init__.py` and
`red/document.py` (the latter adds `HL_TAB`). -/
inductive Style where
  | windowBorder | windowBackground | statusBar | statusBarHL | scrollBar
  | wcharRight | hlNormal | hlDragons | hlWhitespace | hlTab
  deriving DecidableEq, Repr

/-- One display cell: its text (a Python string) and a style tag. -/
structure Cell where
  char : List Char
  style : Style
  deriving DecidableEq, Repr

/-- The special cell marking the right column of a double-width character. -/
def WCHAR_RIGHT : Cell := ⟨['<'], Style.wcharRight⟩

def TAB_SIZE : Nat := 8

/-- The visible tab marker glyph U+203A. -/
def tabMarker : Char := '›'

/-- The whitespace-visualisation glyph U+00B7 (middle dot). -/
def middleDot : Char := '·'

/-!  `TextRow._render` from `red/__init__.py`, as a structural recursion
producing the `cells` and `_rendered_widths` lists together with the running
display column `x`.  Note that, exactly as in the source, `x` is *not*
advanced in the tab branch. -/

/-- One pass of `TextRow._render` over the remaining characters, given the
precomputed `text_is_ws` flag and the current value of `x`.  Returns the
cells and width entries produced by the remaining characters. -/
def textRowRender (isWs : Bool) : List Char → Nat → List Cell × List Nat
  | [], _ => ([], [])
  | ch :: rest, x =>
    let chW := wcwidth ch
    if ch = '\t' then
      let tabSize := TAB_SIZE - x % TAB_SIZE
      let r := textRowRender isWs rest x
      (((tabMarker :: List.replicate (TAB_SIZE - 1) ' ').take tabSize).map
          (fun c => Cell.mk [c] Style.hlWhitespace) ++ r.1,
       tabSize :: r.2)
    else if isWs = true ∧ 0 < chW then
      let r := textRowRender isWs rest (x + chW.toNat)
      (List.replicate chW.toNat (Cell.mk [middleDot] Style.hlWhitespace) ++ r.1,
       chW.toNat :: r.2)
    else if 0 < chW then
      let r := textRowRender isWs rest (x + chW.toNat)
      ((Cell.mk [ch] Style.hlNormal ::
          (if chW = 2 then [WCHAR_RIGHT] else [])) ++ r.1,
       chW.toNat :: r.2)
    else
      textRowRender isWs rest x

/-- The `cells` list derived by `TextRow._render` for a given text. -/
def textRowCells (s : List Char) : List Cell :=
  (textRowRender (strIsSpace s) s 0).1

/-- The `_rendered_widths` list derived by `TextRow._render`. -/
def textRowWidths (s : List Char) : List Nat :=
  (textRowRender (strIsSpace s) s 0).2

/-- `TextRow.char_to_cell`: sum of the first `idx` width entries. -/
def charToCell (s : List Char) (idx : Nat) : Nat :=
  ((textRowWidths s).take idx).sum

/-- The enumeration loop of `TextRow.cell_to_char`: walk the width entries
with the running index and width sum; past the end return the text length. -/
def cellToCharGo (textLen x : Nat) : List Nat → Nat → Nat → Nat
  | [], _, _ => textLen
  | w :: ws, idx, wSum =>
    if x < wSum + w then idx else cellToCharGo textLen x ws (idx + 1) (wSum + w)

/-- `TextRow.cell_to_char`. -/
def cellToChar (s : List Char) (x : Nat) : Nat :=
  cellToCharGo s.length x (textRowWidths s) 0 0

/-!  `TextLine._render` from `red/document.py`.  Differences from `TextRow`:
tab cells carry style `HL_TAB` and their filler uses `ws_char`; whitespace
characters always render as `ws_char` cells with style `HL_WHITESPACE`;
non-whitespace characters are grouped into clusters with the following
zero-width characters and measured with `wcswidth`.  As in `TextRow`, `x` is
not advanced in the tab branch. -/

/-- Dropping a prefix never lengthens a list (termination helper). -/
theorem length_dropWhile_le' {α : Type} (p : α → Bool) :
    ∀ (l : List α), (l.dropWhile p).length ≤ l.length := by
  intro l
  induction l with
  | nil => simp [List.dropWhile]
  | cons a t ih =>
    simp only [List.dropWhile]
    cases p a <;> simp
    exact Nat.le_succ_of_le ih

/-- The loop of `TextLine._render`, given the precomputed `ws_char` and the
current display column `x`. -/
def textLineRender (wsChar : Char) : List Char → Nat → List Cell × List Nat
  | [], _ => ([], [])
  | c :: rest, x =>
    if c = '\t' then
      let tabSize := TAB_SIZE - x % TAB_SIZE
      let r := textLineRender wsChar rest x
      (((tabMarker :: List.replicate (TAB_SIZE - 1) wsChar).take tabSize).map
          (fun ch => Cell.mk [ch] Style.hlTab) ++ r.1,
       tabSize :: r.2)
    else if pyIsSpace c then
      let w := wcwidth c
      if 0 < w then
        let r := textLineRender wsChar rest (x + w.toNat)
        (List.replicate w.toNat (Cell.mk [wsChar] Style.hlWhitespace) ++ r.1,
         w.toNat :: r.2)
      else
        textLineRender wsChar rest x
    else
      let zeros := rest.takeWhile (fun z => wcwidth z = 0)
      let rest' := rest.dropWhile (fun z => wcwidth z = 0)
      let w := wcswidth (c :: zeros)
      if 0 < w then
        let r := textLineRender wsChar rest' (x + w.toNat)
        ((Cell.mk (c :: zeros) Style.hlNormal ::
            (if w = 2 then [WCHAR_RIGHT] else [])) ++ r.1,
         w.toNat :: r.2)
      else
        textLineRender wsChar rest' x
  termination_by l _ => l.length
  decreasing_by
  · simp
  · simp
  · simp
  · simp only [List.length_cons]
    exact Nat.lt_succ_of_le (length_dropWhile_le' _ _)
  · simp only [List.length_cons]
    exact Nat.lt_succ_of_le (length_dropWhile_le' _ _)

/-- The `ws_char` chosen by `TextLine._render`. -/
def textLineWsChar (s : List Char) : Char :=
  if strIsSpace s then middleDot else ' '

/-- The `cells` list derived by `TextLine._render` for a given text. -/
def textLineCells (s : List Char) : List Cell :=
  (textLineRender (textLineWsChar s) s 0).1

/-- The `_rendered_widths` list derived by `TextLine._render`. -/
def textLineWidths (s : List Char) : List Nat :=
  (textLineRender (textLineWsChar s) s 0).2

/-!  `TextDocument` from `red/__init__.py` (its lines are `TextRow`s).  A
line is represented by its text; `cells` and `_rendered_widths` are derived
on demand with `textRowCells` / `textRowWidths`.  The cursor components are
stored as `Nat` (the constructor and `move_cursor`, the only writers of
`_cursor`, only ever store clamped non-negative values); externally supplied
coordinates are `Int`. -/

/-- A position in document space (0-based line and character index). -/
structure DocumentLocation where
  line : Nat
  char : Nat
  deriving DecidableEq, Repr

/-- A position in display space (0-based row and display column). -/
structure CellLocation where
  row : Nat
  col : Nat
  deriving DecidableEq, Repr

/-- The `TextDocument` state: line texts, cursor and the cached `_max_col`. -/
structure Doc where
  lines : List (List Char)
  cursor : DocumentLocation
  maxCol : Nat
  deriving DecidableEq, Repr

/-- A freshly constructed `TextDocument`. -/
def emptyDoc : Doc := ⟨[], ⟨0, 0⟩, 0⟩

/-- `TextDocument.max_row`: the number of lines. -/
def maxRow (d : Doc) : Nat := d.lines.length

/-- Python list subscript `l[i]`, with negative-index semantics; `none`
models `IndexError`. -/
def pyIndex {α : Type} (l : List α) (i : Int) : Option α :=
  if 0 ≤ i then l.get? i.toNat
  else if (-i).toNat ≤ l.length then l.get? (l.length - (-i).toNat)
  else none

/-- `TextDocument.append_line`. -/
def appendLine (d : Doc) (s : List Char) : Doc :=
  { d with maxCol := max d.maxCol (textRowCells s).length,
           lines := d.lines ++ [s] }

/-- `TextDocument.clear`: resets `lines` only — neither the cursor nor
`_max_col` is touched, exactly as in the source. -/
def clear (d : Doc) : Doc := { d with lines := [] }

/-- `TextDocument.read_from_file`, applied to the already-split,
terminator-stripped lines of the file. -/
def readFromFile (d : Doc) (ls : List (List Char)) : Doc :=
  ls.foldl appendLine (clear d)

/-- `TextDocument.move_cursor`: clamp the row into `[0, max_row]`, then the
index to `0` at the virtual end-of-document row and into `[0, line length]`
otherwise. -/
def moveCursor (d : Doc) (row idx : Int) : Doc :=
  let row' := max 0 (min row (maxRow d : Int))
  let idx' : Int :=
    if row' = (maxRow d : Int) then 0
    else max 0 (min idx ((d.lines.getD row'.toNat []).length : Int))
  { d with cursor := ⟨row'.toNat, idx'.toNat⟩ }

/-- `TextDocument.move_home`. -/
def moveHome (d : Doc) : Doc := moveCursor d d.cursor.line 0

/-- `TextDocument.move_end`. -/
def moveEnd (d : Doc) : Doc :=
  if d.cursor.line = maxRow d then d
  else moveCursor d d.cursor.line ((d.lines.getD d.cursor.line []).length : Int)

/-- `TextDocument.move_forward`. -/
def moveForward (d : Doc) : Doc :=
  if d.cursor.line = maxRow d then d
  else
    let row := d.lines.getD d.cursor.line []
    let ci := d.cursor.char + 1
    if row.length < ci then moveCursor d (d.cursor.line + 1) 0
    else moveCursor d d.cursor.line ci

/-- `TextDocument.move_backward`.  Note the source's guard is
`(cr == 0 and ci == 0) or (cr - 1 >= len(lines))`, and `self.lines[cr-1]`
uses Python's negative indexing when `cr = 0`. -/
def moveBackward (d : Doc) : Doc :=
  let cr := d.cursor.line
  let ci := d.cursor.char
  if (cr = 0 ∧ ci = 0) ∨ (maxRow d : Int) ≤ (cr : Int) - 1 then d
  else
    let row := (pyIndex d.lines ((cr : Int) - 1)).getD []
    if (ci : Int) - 1 < 0 ∧ 0 < cr then
      moveCursor d ((cr : Int) - 1) (row.length : Int)
    else moveCursor d cr ((ci : Int) - 1)

/-- `TextDocument.cursor_cell`. -/
def cursorCell (d : Doc) : CellLocation :=
  if d.cursor.line = maxRow d then ⟨d.cursor.line, 0⟩
  else ⟨d.cursor.line, charToCell (d.lines.getD d.cursor.line []) d.cursor.char⟩

/-- `TextDocument.cell_to_cursor`. -/
def cellToCursor (d : Doc) (y x : Int) : DocumentLocation :=
  if y < 0 then ⟨0, 0⟩
  else if (maxRow d : Int) ≤ y then ⟨maxRow d, 0⟩
  else if x < 0 then ⟨y.toNat, 0⟩
  else ⟨y.toNat, cellToChar (d.lines.getD y.toNat []) x.toNat⟩

/-- `TextDocument.delete_character` (forward delete at the cursor). -/
def deleteCharacter (d : Doc) : Doc :=
  if d.cursor.line = d.lines.length then d
  else
    let line := d.lines.getD d.cursor.line []
    if d.cursor.char = line.length then
      if d.cursor.line + 1 < d.lines.length then
        let newLine := line ++ d.lines.getD (d.cursor.line + 1) []
        { d with lines := d.lines.take d.cursor.line ++ [newLine] ++
                          d.lines.drop (d.cursor.line + 2) }
      else d
    else
      let newLine := line.take d.cursor.char ++ line.drop (d.cursor.char + 1)
      { d with lines := d.lines.take d.cursor.line ++ [newLine] ++
                        d.lines.drop (d.cursor.line + 1) }

/-- `TextDocument.insert_newline`. -/
def insertNewline (d : Doc) : Doc :=
  if d.cursor.line = d.lines.length then appendLine d []
  else
    let line := d.lines.getD d.cursor.line []
    { d with lines := d.lines.take d.cursor.line ++
                      [line.take d.cursor.char, line.drop d.cursor.char] ++
                      d.lines.drop (d.cursor.line + 1) }

/-- `TextDocument.insert_character`.  `TextRow.insert_character_at` splices
the character into the line's text and re-renders; `_max_col` is updated
from the re-rendered line's cells. -/
def insertCharacter (d : Doc) (ch : Char) : Doc :=
  if ch = '\r' ∨ ch = '\n' then insertNewline d
  else if d.cursor.line = d.lines.length then appendLine d [ch]
  else
    let line := d.lines.getD d.cursor.line []
    let newLine := line.take d.cursor.char ++ [ch] ++ line.drop d.cursor.char
    { d with lines := d.lines.take d.cursor.line ++ [newLine] ++
                      d.lines.drop (d.cursor.line + 1),
             maxCol := max d.maxCol (textRowCells newLine).length }

/-- The documented cursor invariant of `TextDocument` (spec §3). -/
def Valid (d : Doc) : Prop :=
  d.cursor.line ≤ maxRow d ∧
  (d.cursor.line = maxRow d → d.cursor.char = 0) ∧
  (d.cursor.line < maxRow d →
    d.cursor.char ≤ (d.lines.getD d.cursor.line []).length)

instance (d : Doc) : Decidable (Valid d) := by
  unfold Valid; infer_instance

/-!  The `Editor` layer from `red/__init__.py`: scroll state, page motion and
redraw coalescing.  `n_lines` is the terminal's row count.  The base class
`Application` (with `add_timer` and the run loop) is not part of the source
tree; its timer queue is modelled from the spec (§4.4): `add_timer(0, cb)`
appends one pending zero-delay timer, so the queue of pending `_redraw`
timers is modelled by the counter `pendingRedraws`. -/

/-- Editor state used by the scroll and redraw logic. -/
structure Ed where
  doc : Doc
  scroll : CellLocation
  nLines : Nat
  redrawScheduled : Bool
  pendingRedraws : Nat
  deriving DecidableEq, Repr

/-- `Editor._update_scroll`: bring each scroll axis towards the cursor cell,
then clamp so the viewport does not scroll past the document extent. -/
def updateScroll (ed : Ed) (cc : CellLocation) (winRows winCols : Int) : Ed :=
  let sr0 : Int := ed.scroll.row
  let sr1 : Int :=
    if winRows < 1 then 0
    else if (cc.row : Int) < sr0 then cc.row
    else if sr0 + winRows ≤ (cc.row : Int) then
      max 0 ((cc.row : Int) - winRows + 1)
    else sr0
  let sr2 := min sr1 (max 0 ((maxRow ed.doc : Int) - winRows + 1))
  let sc0 : Int := ed.scroll.col
  let sc1 : Int :=
    if winCols < 1 then 0
    else if (cc.col : Int) < sc0 then cc.col
    else if sc0 + winCols ≤ (cc.col : Int) then
      max 0 ((cc.col : Int) - winCols + 1)
    else sc0
  let sc2 := min sc1 (max 0 ((ed.doc.maxCol : Int) - winCols + 1))
  { ed with scroll := ⟨sr2.toNat, sc2.toNat⟩ }

/-- `Editor.move_down` (the document part; the desired-column flag does not
affect the document or scroll state modelled here). -/
def moveDown (ed : Ed) : Ed :=
  { ed with doc := moveCursor ed.doc ((ed.doc.cursor.line : Int) + 1)
                     ed.doc.cursor.char }

/-- `Editor.move_up`. -/
def moveUp (ed : Ed) : Ed :=
  { ed with doc := moveCursor ed.doc ((ed.doc.cursor.line : Int) - 1)
                     ed.doc.cursor.char }

/-- `Editor.move_page_down`: repeat `move_down` `max(1, n_lines - 3)` times,
then force the scroll row to the cursor's cell row. -/
def movePageDown (ed : Ed) : Ed :=
  let ed' := moveDown^[max 1 (ed.nLines - 3)] ed
  { ed' with scroll := ⟨(cursorCell ed'.doc).row, ed'.scroll.col⟩ }

/-- `Editor.move_page_up`: repeat `move_up` `max(1, n_lines - 3)` times,
then set the scroll row to `document.max_row`, exactly as in the source. -/
def movePageUp (ed : Ed) : Ed :=
  let ed' := moveUp^[max 1 (ed.nLines - 3)] ed
  { ed' with scroll := ⟨maxRow ed'.doc, ed'.scroll.col⟩ }

/-- `Editor.redraw` (the redraw request): schedule a zero-delay `_redraw`
timer only when none is already scheduled. -/
def requestRedraw (ed : Ed) : Ed :=
  if ed.redrawScheduled = false then
    { ed with redrawScheduled := true, pendingRedraws := ed.pendingRedraws + 1 }
  else ed

/-- The scheduler firing one pending `_redraw` timer: the timer is consumed
and `Editor._redraw` first resets `_redraw_scheduled` (the drawing itself
touches neither flag nor queue). -/
def fireRedrawTimer (ed : Ed) : Ed :=
  { ed with redrawScheduled := false, pendingRedraws := ed.pendingRedraws - 1 }

/-!  Checked variants of the `TextDocument` operations: every Python list
subscript becomes a `List.get?` (or `pyIndex` for possibly-negative
subscripts), so a `none` result models an `IndexError` escaping the
operation.  Bodies otherwise mirror the total definitions above. -/

/-- Checked `move_cursor`. -/
def moveCursorC (d : Doc) (row idx : Int) : Option Doc :=
  let row' := max 0 (min row (maxRow d : Int))
  if row' = (maxRow d : Int) then some { d with cursor := ⟨row'.toNat, 0⟩ }
  else do
    let line ← d.lines.get? row'.toNat
    let idx' := max 0 (min idx (line.length : Int))
    some { d with cursor := ⟨row'.toNat, idx'.toNat⟩ }

/-- Checked `cursor_cell`. -/
def cursorCellC (d : Doc) : Option CellLocation :=
  if d.cursor.line = maxRow d then some ⟨d.cursor.line, 0⟩
  else do
    let row ← d.lines.get? d.cursor.line
    some ⟨d.cursor.line, charToCell row d.cursor.char⟩

/-- Checked `cell_to_cursor`. -/
def cellToCursorC (d : Doc) (y x : Int) : Option DocumentLocation :=
  if y < 0 then some ⟨0, 0⟩
  else if (maxRow d : Int) ≤ y then some ⟨maxRow d, 0⟩
  else if x < 0 then some ⟨y.toNat, 0⟩
  else do
    let row ← d.lines.get? y.toNat
    some ⟨y.toNat, cellToChar row x.toNat⟩

/-- Checked `move_home`. -/
def moveHomeC (d : Doc) : Option Doc := moveCursorC d d.cursor.line 0

/-- Checked `move_end`. -/
def moveEndC (d : Doc) : Option Doc :=
  if d.cursor.line = maxRow d then some d
  else do
    let row ← d.lines.get? d.cursor.line
    moveCursorC d d.cursor.line (row.length : Int)

/-- Checked `move_forward`. -/
def moveForwardC (d : Doc) : Option Doc :=
  if d.cursor.line = maxRow d then some d
  else do
    let row ← d.lines.get? d.cursor.line
    let ci := d.cursor.char + 1
    if row.length < ci then moveCursorC d (d.cursor.line + 1) 0
    else moveCursorC d d.cursor.line ci

/-- Checked `move_backward`. -/
def moveBackwardC (d : Doc) : Option Doc :=
  let cr := d.cursor.line
  let ci := d.cursor.char
  if (cr = 0 ∧ ci = 0) ∨ (maxRow d : Int) ≤ (cr : Int) - 1 then some d
  else do
    let row ← pyIndex d.lines ((cr : Int) - 1)
    if (ci : Int) - 1 < 0 ∧ 0 < cr then
      moveCursorC d ((cr : Int) - 1) (row.length : Int)
    else moveCursorC d cr ((ci : Int) - 1)

/-- Checked `delete_character`. -/
def deleteCharacterC (d : Doc) : Option Doc :=
  if d.cursor.line = d.lines.length then some d
  else do
    let line ← d.lines.get? d.cursor.line
    if d.cursor.char = line.length then
      if d.cursor.line + 1 < d.lines.length then do
        let nxt ← d.lines.get? (d.cursor.line + 1)
        some { d with lines := d.lines.take d.cursor.line ++ [line ++ nxt] ++
                               d.lines.drop (d.cursor.line + 2) }
      else some d
    else
      some { d with lines := d.lines.take d.cursor.line ++
                             [line.take d.cursor.char ++
                              line.drop (d.cursor.char + 1)] ++
                             d.lines.drop (d.cursor.line + 1) }

/-- Checked `insert_newline`. -/
def insertNewlineC (d : Doc) : Option Doc :=
  if d.cursor.line = d.lines.length then some (appendLine d [])
  else do
    let line ← d.lines.get? d.cursor.line
    some { d with lines := d.lines.take d.cursor.line ++
                           [line.take d.cursor.char, line.drop d.cursor.char] ++
                           d.lines.drop (d.cursor.line + 1) }

/-- Checked `insert_character`. -/
def insertCharacterC (d : Doc) (ch : Char) : Option Doc :=
  if ch = '\r' ∨ ch = '\n' then insertNewlineC d
  else if d.cursor.line = d.lines.length then some (appendLine d [ch])
  else do
    let line ← d.lines.get? d.cursor.line
    let newLine := line.take d.cursor.char ++ [ch] ++ line.drop d.cursor.char
    some { d with lines := d.lines.take d.cursor.line ++ [newLine] ++
                           d.lines.drop (d.cursor.line + 1),
                  maxCol := max d.maxCol (textRowCells newLine).length }

/-!  Claim C2: `clear` (reached through `read_from_file`) resets the line
list but not the cursor, so loading a shorter file leaves the cursor beyond
the new line count.  Trace from a fresh document: `insert_newline`,
`move_cursor((1, 0))`, `read_from_file([])`. -/

/-- The document produced by the C2 trace. -/
def c2doc : Doc := readFromFile (moveCursor (insertNewline emptyDoc) 1 0) []

/-- C2: after `insert_newline; move_cursor((1,0)); read_from_file([])` the
cursor is `(1, 0)` while the document has 0 lines, so the documented cursor
invariant `cursor.line ∈ [0, line_count]` fails. -/
theorem c2_cursor_invariant_eval :
    c2doc.cursor.line = 1 ∧ maxRow c2doc = 0 ∧ ¬ Valid c2doc := by
  decide

/-!  Claim C3: `delete_character`'s line join does not update `_max_col`, so
the final clamp of `_update_scroll` can pull the scroll left of the cursor.
Trace: load `["aaa", "bbb"]`, `move_end`, `delete_character` (joins to
`"aaabbb"`, 6 cells, while `_max_col` stays 3), `move_end`, then
`_update_scroll(cursor_cell, 1, 2)`. -/

/-- The document produced by the C3 trace: one line `"aaabbb"` with the
cursor at its end, but `_max_col = 3`. -/
def c3doc : Doc :=
  moveEnd (deleteCharacter (moveEnd (readFromFile emptyDoc
    [['a','a','a'], ['b','b','b']])))

/-- The editor state for the C3 trace before the scroll update. -/
def c3ed : Ed := ⟨c3doc, ⟨0, 0⟩, 5, false, 0⟩

/-- C3: with `win_rows = 1`, `win_cols = 2` the cursor cell is `(0, 6)` but
the updated scroll is `(0, 2)`, so the cursor column is not inside
`[scroll.col, scroll.col + win_cols)`: the stale `_max_col = 3` clamps the
scroll away from the cursor. -/
theorem c3_scroll_containment_eval :
    cursorCell c3doc = ⟨0, 6⟩ ∧
    c3doc.maxCol = 3 ∧
    (updateScroll c3ed (cursorCell c3doc) 1 2).scroll = ⟨0, 2⟩ ∧
    ¬ ((cursorCell c3doc).col <
        (updateScroll c3ed (cursorCell c3doc) 1 2).scroll.col + 2) := by
  decide

/-!  Claim C4: both renderers compute a tab's size as
`TAB_SIZE - (x % TAB_SIZE)` but never advance `x` past the tab's cells, so
any tab after an earlier tab is measured against a stale display column. -/

/-- C4: in `"a\t\t"` the second tab starts at display column 8 (one cell for
`a` plus seven for the first tab), so the claimed size is
`8 - (8 % 8) = 8`; both renderers produce 7 instead, because `x` still
holds 1. -/
theorem c4_tab_expansion_eval :
    textRowWidths ['a', '\t', '\t'] = [1, 7, 7] ∧
    textLineWidths ['a', '\t', '\t'] = [1, 7, 7] ∧
    ((textRowWidths ['a', '\t', '\t']).take 2).sum = 8 ∧
    (textRowWidths ['a', '\t', '\t']).getD 2 0 ≠ TAB_SIZE - 8 % TAB_SIZE := by
  refine ⟨by decide, ?_, by decide, by decide⟩
  simp [textLineWidths, textLineRender, textLineWsChar, strIsSpace, pyIsSpace,
    wcwidth, wcswidth, TAB_SIZE]

/-!  Claim C5: `move_page_up` repeats the single-line move correctly but
then sets the scroll row to `document.max_row` — the end of the document —
instead of placing the cursor on the bottom visible row. -/

/-- The editor state for the C5 trace: a 30-line document, a 13-line screen
(10 visible text rows), cursor at line 20, scroll row 15. -/
def c5ed : Ed :=
  ⟨⟨List.replicate 30 ['a'], ⟨20, 0⟩, 1⟩, ⟨15, 0⟩, 13, false, 0⟩

/-- C5: `move_page_up` moves the cursor up `max(1, 13 - 3) = 10` lines to
line 10 but forces `scroll.row` to `max_row = 30`; the cursor row is neither
the bottom visible row `scroll.row + 10 - 1` nor inside the viewport at
all — it lies above the scroll position. -/
theorem c5_page_up_eval :
    (movePageUp c5ed).doc.cursor = ⟨10, 0⟩ ∧
    (movePageUp c5ed).scroll.row = 30 ∧
    maxRow (movePageUp c5ed).doc = 30 ∧
    (cursorCell (movePageUp c5ed).doc).row ≠
      (movePageUp c5ed).scroll.row + (c5ed.nLines - 3) - 1 ∧
    (cursorCell (movePageUp c5ed).doc).row < (movePageUp c5ed).scroll.row := by
  set_option maxRecDepth 4096 in decide

/-- C7: a redraw request schedules a zero-delay `_redraw` timer only when
none is pending: from a state with no scheduled redraw, three consecutive
requests enqueue exactly one timer, and once that timer has fired (resetting
the flag) a new request schedules a fresh one. -/
theorem c7_redraw_coalescing (ed : Ed) (h : ed.redrawScheduled = false) :
    (requestRedraw (requestRedraw (requestRedraw ed))).pendingRedraws =
      ed.pendingRedraws + 1 ∧
    (requestRedraw (requestRedraw (requestRedraw ed))).redrawScheduled = true ∧
    (requestRedraw (fireRedrawTimer (requestRedraw (requestRedraw
        (requestRedraw ed))))).pendingRedraws = ed.pendingRedraws + 1 ∧
    (requestRedraw (fireRedrawTimer (requestRedraw (requestRedraw
        (requestRedraw ed))))).redrawScheduled = true := by
  simp [requestRedraw, fireRedrawTimer, h]

/-!  Helper lemmas about the `TextRow` rendering tables. -/

/-- The modelled `wcwidth` only returns -1, 0, 1 or 2. -/
theorem wcwidth_cases (c : Char) :
    wcwidth c = -1 ∨ wcwidth c = 0 ∨ wcwidth c = 1 ∨ wcwidth c = 2 := by
  unfold wcwidth
  split_ifs <;> simp

/-- `TextRow._render` produces exactly as many cells as the sum of the
width entries. -/
theorem textRowRender_cells_length (isWs : Bool) :
    ∀ (l : List Char) (x : Nat),
      ((textRowRender isWs l x).1).length = ((textRowRender isWs l x).2).sum := by
  intro l
  induction l with
  | nil => intro x; simp [textRowRender]
  | cons ch rest ih =>
    intro x
    simp only [textRowRender]
    split_ifs with h1 h2 h3 h4
    · simp only [List.length_append, List.length_map, List.length_take,
        List.sum_cons, List.length_cons, List.length_replicate]
      rw [ih]
      simp only [TAB_SIZE]
      omega
    · simp only [List.length_append, List.length_replicate, List.sum_cons]
      rw [ih]
    · simp only [List.cons_append, List.nil_append, List.length_cons,
        List.sum_cons]
      rw [ih, h4]
      omega
    · rcases wcwidth_cases ch with h | h | h | h
      · omega
      · omega
      · simp only [List.cons_append, List.nil_append, List.length_cons,
          List.sum_cons]
        rw [ih, h]
        omega
      · exact absurd h h4
    · exact ih x

/-- When every character renders (is a tab or has positive width),
`TextRow._render` produces one width entry per character. -/
theorem textRowRender_widths_length (isWs : Bool) :
    ∀ (l : List Char) (x : Nat), (∀ c ∈ l, c = '\t' ∨ 0 < wcwidth c) →
      ((textRowRender isWs l x).2).length = l.length := by
  intro l
  induction l with
  | nil => intro x _; simp [textRowRender]
  | cons ch rest ih =>
    intro x hr
    have hch := hr ch (List.mem_cons_self _ _)
    have hrest : ∀ c ∈ rest, c = '\t' ∨ 0 < wcwidth c :=
      fun c hc => hr c (List.mem_cons_of_mem _ hc)
    simp only [textRowRender]
    split_ifs with h1 h2 h3 h4
    · simp [ih _ hrest]
    · simp [ih _ hrest]
    · simp [ih _ hrest]
    · simp [ih _ hrest]
    · rcases hch with h | h
      · exact absurd h h1
      · exact absurd h h3

/-- Every width entry produced by `TextRow._render` is at least 1. -/
theorem textRowRender_widths_pos (isWs : Bool) :
    ∀ (l : List Char) (x : Nat) (w : Nat),
      w ∈ (textRowRender isWs l x).2 → 1 ≤ w := by
  intro l
  induction l with
  | nil => intro x w hw; simp [textRowRender] at hw
  | cons ch rest ih =>
    intro x w hw
    simp only [textRowRender] at hw
    split_ifs at hw with h1 h2 h3 h4
    · rcases List.mem_cons.mp hw with h | h
      · subst h; simp only [TAB_SIZE]; omega
      · exact ih _ _ h
    · rcases List.mem_cons.mp hw with h | h
      · subst h; omega
      · exact ih _ _ h
    · rcases List.mem_cons.mp hw with h | h
      · subst h; omega
      · exact ih _ _ h
    · rcases List.mem_cons.mp hw with h | h
      · subst h; omega
      · exact ih _ _ h
    · exact ih _ _ hw

/-- The `cell_to_char` loop at the exact prefix sum `acc + Σ(take j)`:
returns index `j`, or the text length when the widths are exhausted. -/
theorem cellToCharGo_take (T : Nat) :
    ∀ (ws : List Nat) (idx acc j : Nat), (∀ w ∈ ws, 1 ≤ w) → j ≤ ws.length →
      cellToCharGo T (acc + (ws.take j).sum) ws idx acc =
        if j < ws.length then idx + j else T := by
  intro ws
  induction ws with
  | nil =>
    intro idx acc j _ hj
    simp only [List.length_nil, Nat.le_zero] at hj
    subst hj
    simp [cellToCharGo]
  | cons w rest ih =>
    intro idx acc j hpos hj
    have hw : 1 ≤ w := hpos w (List.mem_cons_self _ _)
    cases j with
    | zero =>
      simp only [List.take_zero, List.sum_nil, Nat.add_zero, cellToCharGo]
      rw [if_pos (by omega), if_pos (by simp)]
    | succ j' =>
      simp only [List.take_succ_cons, List.sum_cons, cellToCharGo]
      rw [if_neg (by omega)]
      have := ih (idx + 1) (acc + w) j'
        (fun u hu => hpos u (List.mem_cons_of_mem _ hu))
        (by simp only [List.length_cons] at hj; omega)
      rw [show acc + (w + (rest.take j').sum) = acc + w + (rest.take j').sum by
        omega]
      rw [this]
      by_cases hlt : j' < rest.length
      · rw [if_pos hlt, if_pos (by simpa using Nat.succ_lt_succ hlt)]
        omega
      · rw [if_neg hlt,
          if_neg (by simpa using fun h => hlt (Nat.lt_of_succ_lt_succ h))]

/-- The `cell_to_char` loop snaps any column inside character `j`'s span of
cells back to index `j`. -/
theorem cellToCharGo_snap (T : Nat) :
    ∀ (ws : List Nat) (idx acc j x : Nat), (∀ w ∈ ws, 1 ≤ w) → j < ws.length →
      acc + (ws.take j).sum ≤ x → x < acc + (ws.take (j + 1)).sum →
      cellToCharGo T x ws idx acc = idx + j := by
  intro ws
  induction ws with
  | nil => intro idx acc j x _ hj _ _; simp at hj
  | cons w rest ih =>
    intro idx acc j x hpos hj hlo hhi
    cases j with
    | zero =>
      simp only [List.take_zero, List.sum_nil, Nat.add_zero] at hlo
      simp only [List.take_succ_cons, List.take_zero, List.sum_cons,
        List.sum_nil, Nat.add_zero] at hhi
      simp only [cellToCharGo]
      rw [if_pos (by omega)]
      omega
    | succ j' =>
      simp only [List.take_succ_cons, List.sum_cons] at hlo hhi
      simp only [cellToCharGo]
      rw [if_neg (by omega)]
      exact (by
        have := ih (idx + 1) (acc + w) j' x
          (fun u hu => hpos u (List.mem_cons_of_mem _ hu))
          (by simp only [List.length_cons] at hj; omega)
          (by omega) (by omega)
        omega)

/-- Round trip on one line: when every character renders, `cell_to_char`
inverts `char_to_cell` at every valid character index. -/
theorem charToCell_cellToChar (s : List Char)
    (hr : ∀ c ∈ s, c = '\t' ∨ 0 < wcwidth c) (i : Nat) (hi : i ≤ s.length) :
    cellToChar s (charToCell s i) = i := by
  have hlen : (textRowWidths s).length = s.length :=
    textRowRender_widths_length (strIsSpace s) s 0 hr
  have hpos : ∀ w ∈ textRowWidths s, 1 ≤ w :=
    fun w hw => textRowRender_widths_pos (strIsSpace s) s 0 w hw
  unfold cellToChar charToCell
  have h := cellToCharGo_take s.length (textRowWidths s) 0 0 i hpos (by omega)
  simp only [Nat.zero_add] at h
  rw [h]
  by_cases hlt : i < (textRowWidths s).length
  · rw [if_pos hlt]
  · rw [if_neg hlt]
    omega

/-- Snap-left on one line: a column inside character `i`'s cell span
(including a wide character's continuation cell) maps to `i`. -/
theorem cellToChar_snap (s : List Char)
    (hr : ∀ c ∈ s, c = '\t' ∨ 0 < wcwidth c) (i x : Nat) (hi : i < s.length)
    (hlo : charToCell s i ≤ x) (hhi : x < charToCell s (i + 1)) :
    cellToChar s x = i := by
  have hlen : (textRowWidths s).length = s.length :=
    textRowRender_widths_length (strIsSpace s) s 0 hr
  have hpos : ∀ w ∈ textRowWidths s, 1 ≤ w :=
    fun w hw => textRowRender_widths_pos (strIsSpace s) s 0 w hw
  unfold cellToChar
  unfold charToCell at hlo hhi
  have h := cellToCharGo_snap s.length (textRowWidths s) 0 0 i x hpos
    (by omega) (by omega) (by omega)
  omega

/-- An in-range `getD` is a member of the list. -/
theorem getD_mem_of_lt {α : Type} (l : List α) (n : Nat) (d : α)
    (h : n < l.length) : l.getD n d ∈ l := by
  induction l generalizing n with
  | nil => simp at h
  | cons a t ih =>
    cases n with
    | zero => simp [List.getD]
    | succ m =>
      simp only [List.getD_cons_succ]
      exact List.mem_cons_of_mem _ (ih m (by simpa using h))

/-- C1 (amended): in a document whose lines contain only characters that
render (tabs or positive-width characters), `cell_to_cursor` inverts
`cursor_cell` exactly at every valid cursor, and `cell_to_cursor` snaps any
column inside a character's cell span — a wide character's continuation
cell included — to that character's index. -/
theorem c1_round_trip_snap (d : Doc) (hv : Valid d)
    (hr : ∀ line ∈ d.lines, ∀ c ∈ line, c = '\t' ∨ 0 < wcwidth c) :
    cellToCursor d ((cursorCell d).row : Int) ((cursorCell d).col : Int) =
      d.cursor ∧
    (∀ y i x : Nat, y < maxRow d → i < (d.lines.getD y []).length →
      charToCell (d.lines.getD y []) i ≤ x →
      x < charToCell (d.lines.getD y []) (i + 1) →
      cellToCursor d (y : Int) (x : Int) = ⟨y, i⟩) := by
  obtain ⟨hle, hend, hin⟩ := hv
  constructor
  · by_cases hEnd : d.cursor.line = maxRow d
    · simp only [cursorCell, if_pos hEnd, cellToCursor]
      rw [if_neg (by omega), if_pos (by omega)]
      have h0 := hend hEnd
      cases hc : d.cursor
      simp_all
    · have hlt : d.cursor.line < maxRow d := lt_of_le_of_ne hle hEnd
      have hmem := getD_mem_of_lt d.lines d.cursor.line [] hlt
      simp only [cursorCell, if_neg hEnd, cellToCursor]
      rw [if_neg (by omega), if_neg (by omega), if_neg (by omega)]
      have hrt := charToCell_cellToChar (d.lines.getD d.cursor.line [])
        (hr _ hmem) d.cursor.char (hin hlt)
      simp only [Int.toNat_natCast]
      rw [hrt]
  · intro y i x hy hi hlo hhi
    have hmem := getD_mem_of_lt d.lines y [] hy
    simp only [cellToCursor]
    rw [if_neg (by omega), if_neg (by omega), if_neg (by omega)]
    have hs := cellToChar_snap (d.lines.getD y []) (hr _ hmem) i x hi hlo hhi
    simp only [Int.toNat_natCast]
    rw [hs]

/-- Witness document for C1: one line `"a\t漢"` with the cursor on the wide
character. -/
def c1doc : Doc := ⟨[['a', '\t', '漢']], ⟨0, 2⟩, 10⟩

/-- Counterexample document for C1: one line `"a"` followed by a combining
acute accent (width 0), cursor after the accent. -/
def c1cexDoc : Doc := ⟨[['a', '́']], ⟨0, 1⟩, 1⟩

/-- Witness for C1: the round trip is exact on `c1doc`, and column 9 — the
continuation cell of `漢`, whose cells span columns 8 and 9 — snaps left to
character index 2. -/
theorem c1_round_trip_snap_witness :
    cellToCursor c1doc ((cursorCell c1doc).row : Int)
        ((cursorCell c1doc).col : Int) = c1doc.cursor ∧
    cellToCursor c1doc 0 9 = ⟨0, 2⟩ := by
  constructor
  · exact (c1_round_trip_snap c1doc (by decide) (by decide)).1
  · exact (c1_round_trip_snap c1doc (by decide) (by decide)).2 0 2 9
      (by decide) (by decide) (by decide) (by decide)

/-- Counterexample to C1 as stated: the location `(0, 1)` is valid for the
line `"a" + U+0301` (combining accent), its cursor cell is `(0, 1)`, yet
`cell_to_cursor` returns `(0, 2)` — and column 1 is not a continuation cell
(the line renders as a single cell), so the claim's snap-left exception does
not apply.  Zero-width characters produce no width entry, misaligning the
width table. -/
theorem c1_round_trip_cex :
    Valid c1cexDoc ∧
    cursorCell c1cexDoc = ⟨0, 1⟩ ∧
    cellToCursor c1cexDoc 0 1 = ⟨0, 2⟩ ∧
    cellToCursor c1cexDoc 0 1 ≠ c1cexDoc.cursor ∧
    (textRowCells ['a', '́']).length = 1 := by
  decide

/-- Witness for C7 at a concrete editor state. -/
theorem c7_redraw_coalescing_witness :
    (requestRedraw (requestRedraw (requestRedraw
      (⟨emptyDoc, ⟨0, 0⟩, 24, false, 0⟩ : Ed)))).pendingRedraws = 1 ∧
    (requestRedraw (requestRedraw (requestRedraw
      (⟨emptyDoc, ⟨0, 0⟩, 24, false, 0⟩ : Ed)))).redrawScheduled = true ∧
    (requestRedraw (fireRedrawTimer (requestRedraw (requestRedraw
      (requestRedraw (⟨emptyDoc, ⟨0, 0⟩, 24, false, 0⟩ : Ed)))))).pendingRedraws
      = 1 ∧
    (requestRedraw (fireRedrawTimer (requestRedraw (requestRedraw
      (requestRedraw (⟨emptyDoc, ⟨0, 0⟩, 24, false, 0⟩ : Ed)))))).redrawScheduled
      = true :=
  c7_redraw_coalescing ⟨emptyDoc, ⟨0, 0⟩, 24, false, 0⟩ rfl

/-- The tab character is a control character for `wcwidth`. -/
theorem wcwidth_tab : wcwidth '\t' = -1 := by decide

/-- `TextRow._render` silently drops zero-width characters: they produce
neither cells nor width entries and leave `x` unchanged. -/
theorem textRowRender_skip_zeros (isWs : Bool) :
    ∀ (zeros : List Char), (∀ z ∈ zeros, wcwidth z = 0) →
      ∀ (rst : List Char) (x : Nat),
        textRowRender isWs (zeros ++ rst) x = textRowRender isWs rst x := by
  intro zeros
  induction zeros with
  | nil => intro _ rst x; simp
  | cons z zs ih =>
    intro hz rst x
    have hz0 : wcwidth z = 0 := hz z (List.mem_cons_self _ _)
    have hzt : ¬ z = '\t' := by
      intro h; rw [h, wcwidth_tab] at hz0; exact absurd hz0 (by decide)
    simp only [List.cons_append, textRowRender]
    rw [if_neg hzt, if_neg (by rw [hz0]; simp), if_neg (by rw [hz0]; simp)]
    exact ih (fun u hu => hz u (List.mem_cons_of_mem _ hu)) rst x

/-- The width of a cluster (one character followed by zero-width ones) is
the head's width when that is printable, and -1 otherwise. -/
theorem wcswidth_cons_zeros (c : Char) (zeros : List Char)
    (hz : ∀ z ∈ zeros, wcwidth z = 0) :
    wcswidth (c :: zeros) = if 0 ≤ wcwidth c then wcwidth c else -1 := by
  have hall : zeros.all (fun u => 0 ≤ wcwidth u) = true := by
    simp only [List.all_eq_true, decide_eq_true_eq]
    intro u hu; rw [hz u hu]
  have hsum : (zeros.map wcwidth).sum = 0 := by
    apply List.sum_eq_zero
    intro u hu
    rcases List.mem_map.mp hu with ⟨z, hzz, rfl⟩
    exact hz z hzz
  unfold wcswidth
  by_cases h : 0 ≤ wcwidth c
  · rw [if_pos (by simp [List.all_cons, hall, h]), if_pos h]
    simp [hsum]
  · rw [if_neg (by simp [List.all_cons]; intro hc; exact absurd hc h), if_neg h]

/-- Step equation of `TextRow._render` for a tab. -/
theorem textRowRender_cons_tab (isWs : Bool) (rest : List Char) (x : Nat) :
    textRowRender isWs ('\t' :: rest) x =
      (((tabMarker :: List.replicate (TAB_SIZE - 1) ' ').take
            (TAB_SIZE - x % TAB_SIZE)).map
          (fun c => Cell.mk [c] Style.hlWhitespace) ++
        (textRowRender isWs rest x).1,
       (TAB_SIZE - x % TAB_SIZE) :: (textRowRender isWs rest x).2) := by
  simp [textRowRender]

/-- Step equation of `TextRow._render` for a positive-width character of an
all-whitespace line. -/
theorem textRowRender_cons_ws (rest : List Char) (x : Nat) (c : Char)
    (hc : ¬ c = '\t') (hw : 0 < wcwidth c) :
    textRowRender true (c :: rest) x =
      (List.replicate (wcwidth c).toNat (Cell.mk [middleDot] Style.hlWhitespace)
         ++ (textRowRender true rest (x + (wcwidth c).toNat)).1,
       (wcwidth c).toNat ::
         (textRowRender true rest (x + (wcwidth c).toNat)).2) := by
  simp only [textRowRender]
  rw [if_neg hc, if_pos (⟨trivial, hw⟩ : True ∧ 0 < wcwidth c)]

/-- Step equation of `TextRow._render` for a positive-width character of a
line that is not all whitespace. -/
theorem textRowRender_cons_normal (rest : List Char) (x : Nat) (c : Char)
    (hc : ¬ c = '\t') (hw : 0 < wcwidth c) :
    textRowRender false (c :: rest) x =
      ((Cell.mk [c] Style.hlNormal ::
          (if wcwidth c = 2 then [WCHAR_RIGHT] else [])) ++
        (textRowRender false rest (x + (wcwidth c).toNat)).1,
       (wcwidth c).toNat ::
         (textRowRender false rest (x + (wcwidth c).toNat)).2) := by
  simp only [textRowRender]
  rw [if_neg hc,
    if_neg (show ¬(false = true ∧ 0 < wcwidth c) from fun h => by
      exact absurd h.1 (by simp)),
    if_pos hw]

/-- Step equation of `TextRow._render` for a dropped character. -/
theorem textRowRender_cons_skip (isWs : Bool) (rest : List Char) (x : Nat)
    (c : Char) (hc : ¬ c = '\t') (hw : ¬ 0 < wcwidth c) :
    textRowRender isWs (c :: rest) x = textRowRender isWs rest x := by
  simp only [textRowRender]
  rw [if_neg hc, if_neg (fun h => hw h.2), if_neg hw]

/-- The width entry of a positive-width character does not depend on the
`text_is_ws` flag. -/
theorem textRowRender_cons_pos_widths (isWs : Bool) (rest : List Char)
    (x : Nat) (c : Char) (hc : ¬ c = '\t') (hw : 0 < wcwidth c) :
    (textRowRender isWs (c :: rest) x).2 =
      (wcwidth c).toNat ::
        (textRowRender isWs rest (x + (wcwidth c).toNat)).2 := by
  cases isWs
  · rw [textRowRender_cons_normal rest x c hc hw]
  · rw [textRowRender_cons_ws rest x c hc hw]

/-- Step equation of `TextLine._render` for a tab. -/
theorem textLineRender_cons_tab (wsChar : Char) (rest : List Char) (x : Nat) :
    textLineRender wsChar ('\t' :: rest) x =
      (((tabMarker :: List.replicate (TAB_SIZE - 1) wsChar).take
            (TAB_SIZE - x % TAB_SIZE)).map
          (fun ch => Cell.mk [ch] Style.hlTab) ++
        (textLineRender wsChar rest x).1,
       (TAB_SIZE - x % TAB_SIZE) :: (textLineRender wsChar rest x).2) := by
  simp [textLineRender]

/-- Step equation of `TextLine._render` for a positive-width whitespace
character. -/
theorem textLineRender_cons_ws_pos (wsChar : Char) (rest : List Char)
    (x : Nat) (c : Char) (hc : ¬ c = '\t') (hsp : pyIsSpace c)
    (hw : 0 < wcwidth c) :
    textLineRender wsChar (c :: rest) x =
      (List.replicate (wcwidth c).toNat (Cell.mk [wsChar] Style.hlWhitespace)
         ++ (textLineRender wsChar rest (x + (wcwidth c).toNat)).1,
       (wcwidth c).toNat ::
         (textLineRender wsChar rest (x + (wcwidth c).toNat)).2) := by
  simp only [textLineRender]
  rw [if_neg hc, if_pos hsp, if_pos hw]

/-- Step equation of `TextLine._render` for a whitespace character of
non-positive width. -/
theorem textLineRender_cons_ws_nonpos (wsChar : Char) (rest : List Char)
    (x : Nat) (c : Char) (hc : ¬ c = '\t') (hsp : pyIsSpace c)
    (hw : ¬ 0 < wcwidth c) :
    textLineRender wsChar (c :: rest) x = textLineRender wsChar rest x := by
  simp only [textLineRender]
  rw [if_neg hc, if_pos hsp, if_neg hw]

/-- Step equation of `TextLine._render` for a positive-width cluster. -/
theorem textLineRender_cons_cluster_pos (wsChar : Char) (rest : List Char)
    (x : Nat) (c : Char) (hc : ¬ c = '\t') (hsp : ¬ pyIsSpace c)
    (hw : 0 < wcswidth (c :: rest.takeWhile (fun z => wcwidth z = 0))) :
    textLineRender wsChar (c :: rest) x =
      ((Cell.mk (c :: rest.takeWhile (fun z => wcwidth z = 0)) Style.hlNormal ::
          (if wcswidth (c :: rest.takeWhile (fun z => wcwidth z = 0)) = 2 then
            [WCHAR_RIGHT] else [])) ++
        (textLineRender wsChar (rest.dropWhile (fun z => wcwidth z = 0))
          (x + (wcswidth
            (c :: rest.takeWhile (fun z => wcwidth z = 0))).toNat)).1,
       (wcswidth (c :: rest.takeWhile (fun z => wcwidth z = 0))).toNat ::
         (textLineRender wsChar (rest.dropWhile (fun z => wcwidth z = 0))
           (x + (wcswidth
             (c :: rest.takeWhile (fun z => wcwidth z = 0))).toNat)).2) := by
  simp only [textLineRender]
  rw [if_neg hc, if_neg hsp, if_pos hw]

/-- Step equation of `TextLine._render` for a non-printable cluster. -/
theorem textLineRender_cons_cluster_nonpos (wsChar : Char) (rest : List Char)
    (x : Nat) (c : Char) (hc : ¬ c = '\t') (hsp : ¬ pyIsSpace c)
    (hw : ¬ 0 < wcswidth (c :: rest.takeWhile (fun z => wcwidth z = 0))) :
    textLineRender wsChar (c :: rest) x =
      textLineRender wsChar (rest.dropWhile (fun z => wcwidth z = 0)) x := by
  simp only [textLineRender]
  rw [if_neg hc, if_neg hsp, if_neg hw]

/-- Induction core: `TextRow._render` and `TextLine._render` derive the
same width table, for every starting column, `text_is_ws` flag and
`ws_char`. -/
theorem render_widths_eq_aux :
    ∀ (n : Nat) (l : List Char), l.length ≤ n →
      ∀ (x : Nat) (isWs : Bool) (wsChar : Char),
        (textRowRender isWs l x).2 = (textLineRender wsChar l x).2 := by
  intro n
  induction n with
  | zero =>
    intro l hl x isWs wsChar
    have h0 : l = [] := List.length_eq_zero.mp (Nat.le_zero.mp hl)
    subst h0
    simp [textRowRender, textLineRender]
  | succ n ih =>
    intro l hl x isWs wsChar
    cases l with
    | nil => simp [textRowRender, textLineRender]
    | cons c rest =>
      have hrest : rest.length ≤ n := by
        simp only [List.length_cons] at hl; omega
      by_cases hc : c = '\t'
      · subst hc
        rw [textRowRender_cons_tab, textLineRender_cons_tab]
        simp only []
        rw [ih rest hrest x isWs wsChar]
      · by_cases hsp : pyIsSpace c
        · by_cases hw : 0 < wcwidth c
          · rw [textLineRender_cons_ws_pos wsChar rest x c hc hsp hw,
              textRowRender_cons_pos_widths isWs rest x c hc hw]
            simp only []
            rw [ih rest hrest _ isWs wsChar]
          · rw [textLineRender_cons_ws_nonpos wsChar rest x c hc hsp hw,
              textRowRender_cons_skip isWs rest x c hc hw]
            exact ih rest hrest x isWs wsChar
        · have hzeros : ∀ z ∈ rest.takeWhile (fun z => wcwidth z = 0),
              wcwidth z = 0 := by
            intro z hzm
            simpa using List.mem_takeWhile_imp hzm
          have hsplit : rest.takeWhile (fun z => wcwidth z = 0) ++
              rest.dropWhile (fun z => wcwidth z = 0) = rest :=
            List.takeWhile_append_dropWhile _ _
          have hdrop : (rest.dropWhile (fun z => wcwidth z = 0)).length ≤ n :=
            le_trans (length_dropWhile_le' _ _) hrest
          have hclw := wcswidth_cons_zeros c _ hzeros
          have hrow : ∀ y, textRowRender isWs rest y =
              textRowRender isWs (rest.dropWhile (fun z => wcwidth z = 0)) y := by
            intro y
            conv_lhs => rw [← hsplit]
            exact textRowRender_skip_zeros isWs _ hzeros _ _
          by_cases hw : 0 < wcwidth c
          · have hclpos : 0 <
                wcswidth (c :: rest.takeWhile (fun z => wcwidth z = 0)) := by
              rw [hclw, if_pos (le_of_lt hw)]; exact hw
            rw [textLineRender_cons_cluster_pos wsChar rest x c hc hsp hclpos,
              textRowRender_cons_pos_widths isWs rest x c hc hw]
            simp only []
            rw [hclw, if_pos (le_of_lt hw)]
            rw [hrow, ih _ hdrop _ isWs wsChar]
          · have hclnon : ¬ 0 <
                wcswidth (c :: rest.takeWhile (fun z => wcwidth z = 0)) := by
              rw [hclw]
              by_cases h0 : 0 ≤ wcwidth c
              · rw [if_pos h0]; exact hw
              · rw [if_neg h0]; omega
            rw [textLineRender_cons_cluster_nonpos wsChar rest x c hc hsp hclnon,
              textRowRender_cons_skip isWs rest x c hc hw]
            rw [hrow]
            exact ih _ hdrop x isWs wsChar

/-- The two renderers derive the same width table for every text. -/
theorem textRowWidths_eq_textLineWidths (s : List Char) :
    textRowWidths s = textLineWidths s := by
  unfold textRowWidths textLineWidths
  exact render_widths_eq_aux s.length s (le_refl _) 0 _ _

/-- `TextLine._render` also produces exactly as many cells as the sum of
its width entries. -/
theorem textLineRender_cells_length (wsChar : Char) :
    ∀ (n : Nat) (l : List Char), l.length ≤ n → ∀ (x : Nat),
      ((textLineRender wsChar l x).1).length =
        ((textLineRender wsChar l x).2).sum := by
  intro n
  induction n with
  | zero =>
    intro l hl x
    have h0 : l = [] := List.length_eq_zero.mp (Nat.le_zero.mp hl)
    subst h0
    simp [textLineRender]
  | succ n ih =>
    intro l hl x
    cases l with
    | nil => simp [textLineRender]
    | cons c rest =>
      have hrest : rest.length ≤ n := by
        simp only [List.length_cons] at hl; omega
      by_cases hc : c = '\t'
      · subst hc
        rw [textLineRender_cons_tab]
        simp only [List.length_append, List.length_map, List.length_take,
          List.sum_cons, List.length_cons, List.length_replicate]
        rw [ih rest hrest x]
        simp only [TAB_SIZE]
        omega
      · by_cases hsp : pyIsSpace c
        · by_cases hw : 0 < wcwidth c
          · rw [textLineRender_cons_ws_pos wsChar rest x c hc hsp hw]
            simp only [List.length_append, List.length_replicate,
              List.sum_cons]
            rw [ih rest hrest _]
          · rw [textLineRender_cons_ws_nonpos wsChar rest x c hc hsp hw]
            exact ih rest hrest x
        · have hzeros : ∀ z ∈ rest.takeWhile (fun z => wcwidth z = 0),
              wcwidth z = 0 := by
            intro z hzm
            simpa using List.mem_takeWhile_imp hzm
          have hdrop : (rest.dropWhile (fun z => wcwidth z = 0)).length ≤ n :=
            le_trans (length_dropWhile_le' _ _) hrest
          have hclw := wcswidth_cons_zeros c _ hzeros
          by_cases hcl : 0 <
              wcswidth (c :: rest.takeWhile (fun z => wcwidth z = 0))
          · rw [textLineRender_cons_cluster_pos wsChar rest x c hc hsp hcl]
            have hwc : wcswidth (c :: rest.takeWhile (fun z => wcwidth z = 0))
                = wcwidth c := by
              rw [hclw] at hcl ⊢
              by_cases h0 : 0 ≤ wcwidth c
              · rw [if_pos h0]
              · rw [if_neg h0] at hcl; omega
            simp only [List.cons_append, List.length_cons, List.sum_cons,
              List.length_append]
            rw [ih _ hdrop]
            rw [hwc] at hcl ⊢
            rcases wcwidth_cases c with h | h | h | h
            · omega
            · omega
            · rw [h]; simp; omega
            · rw [h]; simp; omega
          · rw [textLineRender_cons_cluster_nonpos wsChar rest x c hc hsp hcl]
            exact ih _ hdrop x

/-- With `ws_char` = middle dot (the all-whitespace case) every cell
`TextLine._render` produces is the tab marker or the middle dot. -/
theorem textLineRender_allws_cells :
    ∀ (l : List Char), (∀ c ∈ l, pyIsSpace c) → ∀ (x : Nat),
      ∀ cell ∈ (textLineRender middleDot l x).1,
        cell.char = [tabMarker] ∨ cell.char = [middleDot] := by
  intro l
  induction l with
  | nil => intro _ x cell hm; simp [textLineRender] at hm
  | cons c rest ih =>
    intro hws x cell hm
    have hrest : ∀ u ∈ rest, pyIsSpace u :=
      fun u hu => hws u (List.mem_cons_of_mem _ hu)
    by_cases hc : c = '\t'
    · subst hc
      rw [textLineRender_cons_tab] at hm
      rcases List.mem_append.mp hm with h | h
      · rcases List.mem_map.mp h with ⟨ch, hch, rfl⟩
        have hch' := List.take_subset _ _ hch
        rcases List.mem_cons.mp hch' with h' | h'
        · left; rw [h']
        · right; rw [List.eq_of_mem_replicate h']
      · exact ih hrest x cell h
    · have hsp : pyIsSpace c := hws c (List.mem_cons_self _ _)
      by_cases hw : 0 < wcwidth c
      · rw [textLineRender_cons_ws_pos middleDot rest x c hc hsp hw] at hm
        rcases List.mem_append.mp hm with h | h
        · right; rw [List.eq_of_mem_replicate h]
        · exact ih hrest _ cell h
      · rw [textLineRender_cons_ws_nonpos middleDot rest x c hc hsp hw] at hm
        exact ih hrest x cell hm

/-- With `ws_char` = blank (a line that is not all whitespace) every
whitespace-styled cell `TextLine._render` produces is blank, and every
tab-styled cell is the tab marker or blank. -/
theorem textLineRender_nonws_cells :
    ∀ (n : Nat) (l : List Char), l.length ≤ n → ∀ (x : Nat),
      ∀ cell ∈ (textLineRender ' ' l x).1,
        (cell.style = Style.hlWhitespace → cell.char = [' ']) ∧
        (cell.style = Style.hlTab →
          cell.char = [tabMarker] ∨ cell.char = [' ']) := by
  intro n
  induction n with
  | zero =>
    intro l hl x cell hm
    have h0 : l = [] := List.length_eq_zero.mp (Nat.le_zero.mp hl)
    subst h0
    simp [textLineRender] at hm
  | succ n ih =>
    intro l hl x cell hm
    cases l with
    | nil => simp [textLineRender] at hm
    | cons c rest =>
      have hrest : rest.length ≤ n := by
        simp only [List.length_cons] at hl; omega
      by_cases hc : c = '\t'
      · subst hc
        rw [textLineRender_cons_tab] at hm
        rcases List.mem_append.mp hm with h | h
        · rcases List.mem_map.mp h with ⟨ch, hch, rfl⟩
          have hch' := List.take_subset _ _ hch
          constructor
          · intro hst; exact absurd hst (by simp)
          · intro _
            rcases List.mem_cons.mp hch' with h' | h'
            · left; rw [h']
            · right; rw [List.eq_of_mem_replicate h']
        · exact ih rest hrest x cell h
      · by_cases hsp : pyIsSpace c
        · by_cases hw : 0 < wcwidth c
          · rw [textLineRender_cons_ws_pos ' ' rest x c hc hsp hw] at hm
            rcases List.mem_append.mp hm with h | h
            · have := List.eq_of_mem_replicate h
              subst this
              exact ⟨fun _ => rfl, fun hst => absurd hst (by simp)⟩
            · exact ih rest hrest _ cell h
          · rw [textLineRender_cons_ws_nonpos ' ' rest x c hc hsp hw] at hm
            exact ih rest hrest x cell hm
        · have hdrop : (rest.dropWhile (fun z => wcwidth z = 0)).length ≤ n :=
            le_trans (length_dropWhile_le' _ _) hrest
          by_cases hcl : 0 <
              wcswidth (c :: rest.takeWhile (fun z => wcwidth z = 0))
          · rw [textLineRender_cons_cluster_pos ' ' rest x c hc hsp hcl] at hm
            rcases List.mem_append.mp hm with h | h
            · rcases List.mem_cons.mp h with h' | h'
              · subst h'
                exact ⟨fun hst => absurd hst (by simp),
                       fun hst => absurd hst (by simp)⟩
              · have : cell = WCHAR_RIGHT := by
                  by_cases h2 : wcswidth
                      (c :: rest.takeWhile (fun z => wcwidth z = 0)) = 2
                  · rw [if_pos h2] at h'
                    exact List.mem_singleton.mp h'
                  · rw [if_neg h2] at h'
                    exact absurd h' (List.not_mem_nil _)
                subst this
                exact ⟨fun hst => absurd hst (by simp [WCHAR_RIGHT]),
                       fun hst => absurd hst (by simp [WCHAR_RIGHT])⟩
            · exact ih _ hdrop _ cell h
          · rw [textLineRender_cons_cluster_nonpos ' ' rest x c hc hsp hcl]
              at hm
            exact ih _ hdrop x cell hm

/-- C10 (amended): the two line-rendering implementations derive the same
per-character width list for every input string; their cell lists however
differ in style tags and whitespace filler (see the counterexample). -/
theorem c10_widths_agree (s : List Char) :
    textRowWidths s = textLineWidths s :=
  textRowWidths_eq_textLineWidths s

/-- Counterexample to C10 as stated: on the line `"\t"` the two renderers
disagree on the cells — `TextRow` fills the tab with blanks styled
`HL_WHITESPACE`, `TextLine` with middle dots styled `HL_TAB`. -/
theorem c10_renderers_cex :
    textRowCells ['\t'] ≠ textLineCells ['\t'] ∧
    (textRowCells ['\t']).getD 1 WCHAR_RIGHT = ⟨[' '], Style.hlWhitespace⟩ ∧
    (textLineCells ['\t']).getD 1 WCHAR_RIGHT = ⟨[middleDot], Style.hlTab⟩ := by
  have h : textLineCells ['\t'] =
      (((tabMarker :: List.replicate 7 middleDot).take 8).map
        (fun ch => Cell.mk [ch] Style.hlTab)) := by
    simp [textLineCells, textLineWsChar, strIsSpace, pyIsSpace,
      textLineRender, TAB_SIZE]
  rw [h]
  refine ⟨?_, by decide, by decide⟩
  decide

/-- C8 (amended): for both renderers the number of derived cells always
equals the sum of the width entries; the width list has exactly one entry
per character provided every character renders (is a tab or has positive
width) — zero- and negative-width characters produce no entry. -/
theorem c8_widths_amended (s : List Char) :
    (textRowCells s).length = (textRowWidths s).sum ∧
    (textLineCells s).length = (textLineWidths s).sum ∧
    ((∀ c ∈ s, c = '\t' ∨ 0 < wcwidth c) →
      (textRowWidths s).length = s.length ∧
      (textLineWidths s).length = s.length) := by
  refine ⟨textRowRender_cells_length _ s 0,
    textLineRender_cells_length _ s.length s (le_refl _) 0,
    fun hr => ⟨textRowRender_widths_length _ s 0 hr, ?_⟩⟩
  rw [← textRowWidths_eq_textLineWidths]
  exact textRowRender_widths_length _ s 0 hr

/-- Counterexample to C8 as stated: the control character U+0001 has
wcwidth -1 and produces no width entry in either renderer, so the width
list is shorter than the character count. -/
theorem c8_widths_cex :
    (textRowWidths ['\x01']).length ≠ (['\x01'] : List Char).length ∧
    (textLineWidths ['\x01']).length ≠ (['\x01'] : List Char).length := by
  constructor
  · decide
  · rw [← textRowWidths_eq_textLineWidths]
    decide

/-- Witness for C8 at the line `"a漢"`. -/
theorem c8_widths_amended_witness :
    (textRowCells ['a', '漢']).length = (textRowWidths ['a', '漢']).sum ∧
    (textRowWidths ['a', '漢']).length = 2 :=
  ⟨(c8_widths_amended ['a', '漢']).1,
   ((c8_widths_amended ['a', '漢']).2.2 (by decide)).1⟩

/-- C9 (amended): in the `TextLine` renderer an all-whitespace line draws
every cell as the middle dot or the tab-marker glyph (never a blank), while
a line containing a non-whitespace character draws every whitespace-styled
cell blank and every tab cell as the marker or blank.  The `TextRow`
renderer, by contrast, always uses blank tab filler (see the
counterexample). -/
theorem c9_whitespace_amended (s : List Char) :
    (strIsSpace s = true →
      ∀ cell ∈ textLineCells s,
        cell.char = [tabMarker] ∨ cell.char = [middleDot]) ∧
    (strIsSpace s = false →
      ∀ cell ∈ textLineCells s,
        (cell.style = Style.hlWhitespace → cell.char = [' ']) ∧
        (cell.style = Style.hlTab →
          cell.char = [tabMarker] ∨ cell.char = [' '])) := by
  constructor
  · intro hs
    have hall : ∀ c ∈ s, pyIsSpace c := by
      unfold strIsSpace at hs
      simp only [Bool.and_eq_true, List.all_eq_true] at hs
      exact fun c hc => hs.2 c hc
    unfold textLineCells textLineWsChar
    rw [if_pos hs]
    exact textLineRender_allws_cells s hall 0
  · intro hs
    unfold textLineCells textLineWsChar
    rw [if_neg (by rw [hs]; simp)]
    exact textLineRender_nonws_cells s.length s (le_refl _) 0

/-- Counterexample to C9 as stated: `"\t"` is an all-whitespace line, yet
`TextRow` renders the tab's second cell as a blank, not a middle dot. -/
theorem c9_whitespace_cex :
    strIsSpace ['\t'] = true ∧
    (textRowCells ['\t']).getD 1 WCHAR_RIGHT =
      ⟨[' '], Style.hlWhitespace⟩ := by
  decide

/-- Witness for C9 at the all-whitespace line `" \t"` and the mixed line
`"a "`. -/
theorem c9_whitespace_amended_witness :
    (∀ cell ∈ textLineCells [' ', '\t'],
      cell.char = [tabMarker] ∨ cell.char = [middleDot]) ∧
    (∀ cell ∈ textLineCells ['a', ' '],
      (cell.style = Style.hlWhitespace → cell.char = [' ']) ∧
      (cell.style = Style.hlTab →
        cell.char = [tabMarker] ∨ cell.char = [' '])) :=
  ⟨(c9_whitespace_amended [' ', '\t']).1 (by decide),
   (c9_whitespace_amended ['a', ' ']).2 (by decide)⟩

/-- An in-range subscript succeeds. -/
theorem get_isSome_of_lt {α : Type} (l : List α) (n : Nat) (h : n < l.length) :
    (l.get? n).isSome := by
  rw [List.get?_eq_get h]
  rfl

/-- Checked `move_cursor` never raises, for every document state and every
externally supplied row and index. -/
theorem moveCursorC_isSome (d : Doc) (row idx : Int) :
    (moveCursorC d row idx).isSome := by
  unfold moveCursorC
  dsimp only
  by_cases h : max 0 (min row (maxRow d : Int)) = (maxRow d : Int)
  · rw [if_pos h]
    rfl
  · rw [if_neg h]
    have hlt : (max 0 (min row (maxRow d : Int))).toNat < d.lines.length := by
      unfold maxRow at h ⊢
      omega
    obtain ⟨line, hline⟩ := Option.isSome_iff_exists.mp
      (get_isSome_of_lt d.lines _ hlt)
    rw [hline]
    rfl

/-- `move_cursor` clamps any externally supplied location into the
documented cursor invariant, from any document state. -/
theorem moveCursor_valid (d : Doc) (row idx : Int) :
    Valid (moveCursor d row idx) := by
  unfold moveCursor Valid maxRow
  dsimp only
  by_cases h : max 0 (min row ((d.lines.length : Nat) : Int)) =
      ((d.lines.length : Nat) : Int)
  · rw [if_pos h]
    refine ⟨by omega, fun _ => by omega, fun _ => by omega⟩
  · rw [if_neg h]
    refine ⟨by omega, fun heq => by omega, fun hlt => by omega⟩

/-- Checked `cursor_cell` never raises on a document satisfying the cursor
invariant. -/
theorem cursorCellC_isSome (d : Doc) (hv : Valid d) :
    (cursorCellC d).isSome := by
  unfold cursorCellC
  by_cases h : d.cursor.line = maxRow d
  · rw [if_pos h]; rfl
  · rw [if_neg h]
    have hlt : d.cursor.line < d.lines.length := by
      have h1 := hv.1; unfold maxRow at h h1; omega
    obtain ⟨line, hline⟩ := Option.isSome_iff_exists.mp
      (get_isSome_of_lt d.lines _ hlt)
    rw [hline]
    rfl

/-- Checked `cell_to_cursor` never raises, for every document state and
every cell location. -/
theorem cellToCursorC_isSome (d : Doc) (y x : Int) :
    (cellToCursorC d y x).isSome := by
  unfold cellToCursorC
  by_cases h1 : y < 0
  · rw [if_pos h1]; rfl
  · rw [if_neg h1]
    by_cases h2 : (maxRow d : Int) ≤ y
    · rw [if_pos h2]; rfl
    · rw [if_neg h2]
      by_cases h3 : x < 0
      · rw [if_pos h3]; rfl
      · rw [if_neg h3]
        have hlt : y.toNat < d.lines.length := by
          unfold maxRow at h2; omega
        obtain ⟨line, hline⟩ := Option.isSome_iff_exists.mp
          (get_isSome_of_lt d.lines _ hlt)
        rw [hline]
        rfl

/-- Checked `move_home` never raises. -/
theorem moveHomeC_isSome (d : Doc) : (moveHomeC d).isSome :=
  moveCursorC_isSome d _ _

/-- Checked `move_end` never raises on a valid document. -/
theorem moveEndC_isSome (d : Doc) (hv : Valid d) : (moveEndC d).isSome := by
  unfold moveEndC
  by_cases h : d.cursor.line = maxRow d
  · rw [if_pos h]; rfl
  · rw [if_neg h]
    have hlt : d.cursor.line < d.lines.length := by
      have h1 := hv.1; unfold maxRow at h h1; omega
    obtain ⟨line, hline⟩ := Option.isSome_iff_exists.mp
      (get_isSome_of_lt d.lines _ hlt)
    rw [hline]
    exact moveCursorC_isSome d _ _

/-- Checked `move_forward` never raises on a valid document. -/
theorem moveForwardC_isSome (d : Doc) (hv : Valid d) :
    (moveForwardC d).isSome := by
  unfold moveForwardC
  by_cases h : d.cursor.line = maxRow d
  · rw [if_pos h]; rfl
  · rw [if_neg h]
    have hlt : d.cursor.line < d.lines.length := by
      have h1 := hv.1; unfold maxRow at h h1; omega
    obtain ⟨line, hline⟩ := Option.isSome_iff_exists.mp
      (get_isSome_of_lt d.lines _ hlt)
    rw [hline]
    show (if line.length < d.cursor.char + 1 then
      moveCursorC d (↑d.cursor.line + 1) 0
      else moveCursorC d ↑d.cursor.line ↑(d.cursor.char + 1)).isSome
    split
    · exact moveCursorC_isSome d _ _
    · exact moveCursorC_isSome d _ _

/-- Checked `move_backward` never raises on a valid document (when the
cursor sits at `(0, char>0)` the source reads `self.lines[-1]`, Python's
last-element subscript, which also succeeds). -/
theorem moveBackwardC_isSome (d : Doc) (hv : Valid d) :
    (moveBackwardC d).isSome := by
  unfold moveBackwardC
  dsimp only
  by_cases hg : (d.cursor.line = 0 ∧ d.cursor.char = 0) ∨
      (maxRow d : Int) ≤ (d.cursor.line : Int) - 1
  · rw [if_pos hg]; rfl
  · rw [if_neg hg]
    push_neg at hg
    obtain ⟨hg1, hg2⟩ := hg
    have hsome : (pyIndex d.lines ((d.cursor.line : Int) - 1)).isSome := by
      unfold pyIndex
      by_cases hcr : 1 ≤ d.cursor.line
      · rw [if_pos (by omega)]
        apply get_isSome_of_lt
        unfold maxRow at hg2
        omega
      · have hcr0 : d.cursor.line = 0 := by omega
        have hci : d.cursor.char ≠ 0 := fun h => hg1 hcr0 h
        have hlen : 1 ≤ d.lines.length := by
          rcases Nat.eq_zero_or_pos d.lines.length with h0 | h0
          · exfalso
            have h1 := hv.2.1
            unfold maxRow at h1
            exact hci (h1 (by omega))
          · exact h0
        rw [if_neg (by omega), if_pos (by omega)]
        apply get_isSome_of_lt
        omega
    obtain ⟨row, hrow⟩ := Option.isSome_iff_exists.mp hsome
    rw [hrow]
    show (if (d.cursor.char : Int) - 1 < 0 ∧ 0 < d.cursor.line then
      moveCursorC d ((d.cursor.line : Int) - 1) (row.length : Int)
      else moveCursorC d d.cursor.line ((d.cursor.char : Int) - 1)).isSome
    split
    · exact moveCursorC_isSome d _ _
    · exact moveCursorC_isSome d _ _

/-- Checked `insert_newline` never raises on a valid document. -/
theorem insertNewlineC_isSome (d : Doc) (hv : Valid d) :
    (insertNewlineC d).isSome := by
  unfold insertNewlineC
  by_cases h : d.cursor.line = d.lines.length
  · rw [if_pos h]; rfl
  · rw [if_neg h]
    have hlt : d.cursor.line < d.lines.length := by
      have h1 := hv.1; unfold maxRow at h1; omega
    obtain ⟨line, hline⟩ := Option.isSome_iff_exists.mp
      (get_isSome_of_lt d.lines _ hlt)
    rw [hline]
    rfl

/-- Checked `insert_character` never raises on a valid document. -/
theorem insertCharacterC_isSome (d : Doc) (hv : Valid d) (ch : Char) :
    (insertCharacterC d ch).isSome := by
  unfold insertCharacterC
  by_cases hnl : ch = '\r' ∨ ch = '\n'
  · rw [if_pos hnl]
    exact insertNewlineC_isSome d hv
  · rw [if_neg hnl]
    by_cases h : d.cursor.line = d.lines.length
    · rw [if_pos h]; rfl
    · rw [if_neg h]
      have hlt : d.cursor.line < d.lines.length := by
        have h1 := hv.1; unfold maxRow at h1; omega
      obtain ⟨line, hline⟩ := Option.isSome_iff_exists.mp
        (get_isSome_of_lt d.lines _ hlt)
      rw [hline]
      rfl

/-- Checked `delete_character` never raises on a valid document. -/
theorem deleteCharacterC_isSome (d : Doc) (hv : Valid d) :
    (deleteCharacterC d).isSome := by
  unfold deleteCharacterC
  by_cases h : d.cursor.line = d.lines.length
  · rw [if_pos h]; rfl
  · rw [if_neg h]
    have hlt : d.cursor.line < d.lines.length := by
      have h1 := hv.1; unfold maxRow at h1; omega
    obtain ⟨line, hline⟩ := Option.isSome_iff_exists.mp
      (get_isSome_of_lt d.lines _ hlt)
    rw [hline]
    show (if d.cursor.char = line.length then _ else _ : Option Doc).isSome
    split
    · split
      · rename_i hlt2
        obtain ⟨nxt, hnxt⟩ := Option.isSome_iff_exists.mp
          (get_isSome_of_lt d.lines _ hlt2)
        rw [hnxt]
        rfl
      · rfl
    · rfl

/-- C6: on a document satisfying the documented cursor invariant, every
`TextDocument` operation is total — no list subscript can raise — for every
externally supplied argument, and `move_cursor` clamps out-of-range rows
and indices back into the valid range rather than rejecting them. -/
theorem c6_operations_total (d : Doc) (hv : Valid d) :
    (∀ row idx : Int,
      (moveCursorC d row idx).isSome ∧ Valid (moveCursor d row idx)) ∧
    (cursorCellC d).isSome ∧
    (∀ y x : Int, (cellToCursorC d y x).isSome) ∧
    (moveHomeC d).isSome ∧
    (moveEndC d).isSome ∧
    (moveForwardC d).isSome ∧
    (moveBackwardC d).isSome ∧
    (∀ ch : Char, (insertCharacterC d ch).isSome) ∧
    (insertNewlineC d).isSome ∧
    (deleteCharacterC d).isSome :=
  ⟨fun row idx => ⟨moveCursorC_isSome d row idx, moveCursor_valid d row idx⟩,
   cursorCellC_isSome d hv,
   fun y x => cellToCursorC_isSome d y x,
   moveHomeC_isSome d,
   moveEndC_isSome d hv,
   moveForwardC_isSome d hv,
   moveBackwardC_isSome d hv,
   fun ch => insertCharacterC_isSome d hv ch,
   insertNewlineC_isSome d hv,
   deleteCharacterC_isSome d hv⟩

/-- Witness document for C6. -/
def c6doc : Doc := ⟨[['a']], ⟨0, 1⟩, 1⟩

/-- Witness for C6 at a concrete valid document with out-of-range inputs. -/
theorem c6_operations_total_witness :
    (moveCursorC c6doc (-5) 100).isSome ∧ Valid (moveCursor c6doc (-5) 100) ∧
    (cellToCursorC c6doc 7 (-3)).isSome ∧ (cursorCellC c6doc).isSome :=
  ⟨((c6_operations_total c6doc (by decide)).1 (-5) 100).1,
   ((c6_operations_total c6doc (by decide)).1 (-5) 100).2,
   (c6_operations_total c6doc (by decide)).2.2.1 7 (-3),
   (c6_operations_total c6doc (by decide)).2.1⟩

end Red
